import Mathlib

/-!
Shallow embedding of `albumentations/core/transforms_interface.py`:
the annotation-batch containers (`BatchInternalType`, `Floats4Internal`,
`BBoxesInternalType`), the range normalizer `to_tuple`, and the
transform dispatch machinery (`BasicTransform.__call__`,
`apply_with_params`, `update_params`, `_get_target_function`,
`DualTransform` target table, `apply_to_bboxes`, `apply_to_mask`,
`add_targets`).

Numeric array cells are modelled by `ℚ` (the claims under study do not
depend on floating-point rounding); numpy arrays by an inductive that
records dimensionality, since `np.array_equal` compares shapes as well
as elements; Python exceptions by `Except Err`.
-/

/-- Python exception classes raised by the embedded code. -/
inductive Err where
  /-- `TypeError` -/
  | typeError : Err
  /-- `ValueError` -/
  | valueError : Err
  /-- `KeyError` (missing dict key) -/
  | keyError : Err
  /-- `IndexError` (array index out of range) -/
  | indexError : Err
  deriving DecidableEq, Repr

/-- A numpy array of cells `α`, either 1-dimensional or 2-dimensional.
`d1 []` models `np.empty((0,))`-style arrays, `d2 []` models
`np.empty((0, k))`-style arrays; distinct constructors on empty arrays
model the shape mismatch that makes `np.array_equal` return `False`. -/
inductive NpA (α : Type) where
  | d1 (xs : List α) : NpA α
  | d2 (xss : List (List α)) : NpA α
  deriving DecidableEq, Repr

/-- `len(a)`: the first dimension of a numpy array. -/
def NpA.len : NpA α → Nat
  | .d1 xs => xs.length
  | .d2 xss => xss.length

/-- `a.ndim`: number of dimensions. -/
def NpA.ndim : NpA α → Nat
  | .d1 _ => 1
  | .d2 _ => 2

/-- Width of the last dimension of a 2-d array (numpy arrays are
rectangular, so every row shares this width). -/
def NpA.lastDim : NpA α → Nat
  | .d1 xs => xs.length
  | .d2 xss => (xss.headD []).length

/-- `np.array_equal`: shapes and elements both equal.  On this model,
equality of the inductive values (same constructor, same lists). -/
def NpA.array_equal [DecidableEq α] (a b : NpA α) : Bool := a == b

/-- Metadata cells carried by the `targets` array have numpy `object`
dtype; the embedding keeps them opaque as natural numbers. -/
abbrev TObj := Nat

/-- The two concrete annotation-batch classes, `BBoxesInternalType` and
`KeypointsInternalType` (Python distinguishes them by `isinstance` on
`self.__class__`; the embedding carries the class as a field). -/
inductive BatchKind where
  | bboxes : BatchKind
  | keypoints : BatchKind
  deriving DecidableEq, Repr

/-- State of a constructed `Floats4Internal` subclass instance:
`array` (float records) and `targets` (aligned object metadata). -/
structure Floats4Internal where
  kind : BatchKind
  array : NpA ℚ
  targets : NpA TObj
  deriving DecidableEq, Repr

/-- `BBoxesInternalType.assert_array_format` /
`KeypointsInternalType.assert_array_format` on an ndarray argument:
non-empty arrays must be 2-dimensional with the kind's allowed last
dimension (exactly 4 for bboxes, 2..4 for keypoints); violations raise
`ValueError`.  (The `isinstance(ndarray)` guard is handled at the
points where a possibly-non-ndarray value flows in.) -/
def assert_array_format (kind : BatchKind) (a : NpA ℚ) : Except Err Unit :=
  if a.len ≠ 0 then
    match kind with
    | .bboxes =>
        if a.ndim = 2 ∧ a.lastDim = 4 then .ok () else .error .valueError
    | .keypoints =>
        if a.ndim = 2 ∧ 2 ≤ a.lastDim ∧ a.lastDim ≤ 4 then .ok ()
        else .error .valueError
  else .ok ()

/-- `check_consistency`: record count must match metadata row count
(`ValueError` otherwise), then the array format assertion. -/
def Floats4Internal.check_consistency (b : Floats4Internal) : Except Err Unit :=
  if b.array.len ≠ b.targets.len then .error .valueError
  else assert_array_format b.kind b.array

/-- `check_consistency` succeeded: the batch invariants hold. -/
def Floats4Internal.Valid (b : Floats4Internal) : Prop :=
  b.check_consistency = .ok ()

instance {ε α : Type} [DecidableEq ε] [DecidableEq α] :
    DecidableEq (Except ε α) := fun a b =>
  match a, b with
  | .ok x, .ok y =>
      if h : x = y then .isTrue (by rw [h]) else .isFalse (by simp [h])
  | .ok _, .error _ => .isFalse (by simp)
  | .error _, .ok _ => .isFalse (by simp)
  | .error e, .error f =>
      if h : e = f then .isTrue (by rw [h]) else .isFalse (by simp [h])

instance (b : Floats4Internal) : Decidable b.Valid := by
  unfold Floats4Internal.Valid; infer_instance

/-- A caller-supplied value that is either already a numpy array or a
plain nested Python sequence (list of per-record lists). -/
inductive PyArr (α : Type) where
  | nd (a : NpA α) : PyArr α
  | plain (xss : List (List α)) : PyArr α
  deriving DecidableEq, Repr

/-- `np.array(xss, dtype=...)` on a plain rectangular nested list:
an empty list gives a `(0,)`-shaped array, a list of `n` lists gives an
`(n, m)`-shaped array. -/
def npOfPlain (xss : List (List α)) : NpA α :=
  if xss.isEmpty then .d1 [] else .d2 xss

/-- Constructing a `BBoxesInternalType` / `KeypointsInternalType`
(the dataclass `__init__` followed by `BatchInternalType.__post_init__`).
The generated `__init__` assigns the `array` field first, which
`BatchInternalType.__setattr__` intercepts, running
`assert_array_format` on the raw caller value: a non-ndarray raises
`TypeError` there, before `__post_init__`'s coercion can run.  For an
ndarray the format is checked (`ValueError` on violation), then
`__post_init__` re-assigns `array.astype(float)` (identity on the ℚ
model, re-checked by `__setattr__`), coerces a non-ndarray `targets`
via `np.array(..., dtype=object)`, synthesizes `np.empty((len(array), 0))`
metadata when the array is non-empty but `targets` has zero rows
(also covering the omitted-`targets` default `np.empty((0, 0))`), and
finally runs `check_consistency`. -/
def construct (kind : BatchKind) (arrayIn : PyArr ℚ)
    (targetsIn : Option (PyArr TObj)) : Except Err Floats4Internal :=
  match arrayIn with
  | .plain _ => .error .typeError
  | .nd a => do
      let _ ← assert_array_format kind a
      let _ ← assert_array_format kind a
      let t0 : NpA TObj :=
        match targetsIn with
        | none => .d2 []
        | some (.nd t) => t
        | some (.plain xss) => npOfPlain xss
      let t1 : NpA TObj :=
        if a.len ≠ 0 ∧ t0.len = 0 then .d2 (List.replicate a.len []) else t0
      let b : Floats4Internal := ⟨kind, a, t1⟩
      let _ ← b.check_consistency
      pure b

/-- `Floats4Internal.__eq__`: comparing against a different class raises
`TypeError`; if all four stored arrays have zero length the batches are
equal regardless of stored shape; otherwise `np.array_equal` on records
and on metadata. -/
def Floats4Internal.eq (self other : Floats4Internal) : Except Err Bool :=
  if self.kind ≠ other.kind then .error .typeError
  else if self.array.len = 0 ∧ other.array.len = 0 ∧
      self.targets.len = 0 ∧ other.targets.len = 0 then .ok true
  else .ok (self.array.array_equal other.array &&
    self.targets.array_equal other.targets)

/-- Numpy assignment `dest_row = src` of a source array into a
1-dimensional destination row of width `w`: the source must broadcast
to shape `(w,)` — an exact-width vector (possibly behind a leading
length-1 dimension), or a single element replicated across the row. -/
def broadcastRow (w : Nat) (src : NpA α) : Option (List α) :=
  let bc1 : List α → Option (List α) := fun xs =>
    if xs.length = w then some xs
    else match xs with
      | [x] => some (List.replicate w x)
      | _ => none
  match src with
  | .d1 xs => bc1 xs
  | .d2 [xs] => bc1 xs
  | .d2 _ => none

/-- `Floats4Internal.__setitem__` at an integer index:
`self.array[idx] = value.array` then `self.targets[idx] = value.targets`,
each a numpy in-place row assignment (broadcast failure raises
`ValueError`, an out-of-range index `IndexError`; shapes of `self`'s
arrays never change).  The embedding covers batches in the canonical
2-dimensional layout (the layout `construct` yields for non-empty
input); other stored layouts are not modelled. -/
def Floats4Internal.setItemInt (self : Floats4Internal) (idx : Nat)
    (value : Floats4Internal) : Except Err Floats4Internal :=
  match self.array, self.targets with
  | .d2 xss, .d2 tss =>
      if h : idx < xss.length then
        let row := xss.get ⟨idx, h⟩
        match broadcastRow row.length value.array with
        | none => .error .valueError
        | some newRow =>
            if h2 : idx < tss.length then
              let trow := tss.get ⟨idx, h2⟩
              match broadcastRow trow.length value.targets with
              | none => .error .valueError
              | some newT =>
                  .ok ⟨self.kind, .d2 (xss.set idx newRow),
                    .d2 (tss.set idx newT)⟩
            else .error .indexError
      else .error .indexError
  | _, _ => .error .typeError

/-- `bias + x` applied to both ends of a resolved pair (the final
`tuple(bias + x for x in param)` step of `to_tuple`). -/
def applyBias (bias : Option ℚ) (p : ℚ × ℚ) : ℚ × ℚ :=
  match bias with
  | none => p
  | some b => (b + p.1, b + p.2)

/-- The `param` argument of `to_tuple`: Python `None`, a scalar, or a
sequence. -/
inductive TParam where
  | noneV : TParam
  | scalar (v : ℚ) : TParam
  | seq (xs : List ℚ) : TParam
  deriving DecidableEq, Repr

/-- `to_tuple(param, low, bias)`: `low` and `bias` are mutually
exclusive (`ValueError`); `None` propagates; a scalar `v` resolves to
`(-v, +v)` without `low` and to the ordered pair of `v` and `low` with
it; a sequence must have exactly 2 elements and is taken verbatim;
finally `bias` is added to both ends. -/
def to_tuple (param : TParam) (low : Option ℚ) (bias : Option ℚ) :
    Except Err (Option (ℚ × ℚ)) :=
  if low.isSome ∧ bias.isSome then .error .valueError
  else
    match param with
    | .noneV => .ok none
    | .scalar v =>
        let pair : ℚ × ℚ :=
          match low with
          | none => (-v, v)
          | some l => if l < v then (l, v) else (v, l)
        .ok (some (applyBias bias pair))
    | .seq xs =>
        match xs with
        | [x, y] => .ok (some (applyBias bias (x, y)))
        | _ => .error .valueError

/-- Values of transform parameter dictionaries. -/
inductive PVal where
  | natV (n : Nat) : PVal
  | ratV (q : ℚ) : PVal
  | strV (s : String) : PVal
  deriving DecidableEq, Repr

/-- A Python dict as an insertion-ordered association list with unique
keys (the form every dict in the embedded code has). -/
abbrev Params := List (String × PVal)

/-- `d[k]`-style lookup. -/
def dictGet [DecidableEq κ] : List (κ × β) → κ → Option β
  | [], _ => none
  | kv :: rest, k => if kv.1 = k then some kv.2 else dictGet rest k

/-- `d[k] = v`: replace in place when the key is present (order kept),
append otherwise. -/
def dictSet [DecidableEq κ] : List (κ × β) → κ → β → List (κ × β)
  | [], k, v => [(k, v)]
  | kv :: rest, k, v =>
      if kv.1 = k then (k, v) :: rest
      else kv :: dictSet rest k v

/-- `cv2.INTER_NEAREST` (the OpenCV constant equals 0). -/
def INTER_NEAREST : PVal := .natV 0

/-- An image buffer: `shape[0]` is `rows`, `shape[1]` is `cols`. -/
structure Img where
  rows : Nat
  cols : Nat
  data : List (List ℚ)
  deriving DecidableEq, Repr

/-- A value passed under a named key to a transform invocation: an
image-like buffer, an annotation batch, a replay store (dict keyed by
transform identity), an opaque unrecognized value, or Python `None`. -/
inductive Value where
  | img (im : Img) : Value
  | boxes (b : Floats4Internal) : Value
  | store (s : List (Nat × Params)) : Value
  | raw (n : Nat) : Value
  | null : Value
  deriving DecidableEq, Repr

/-- Named-argument data of one invocation (`**kwargs`). -/
abbrev KwArgs := List (String × Value)

/-- Instance state of a `DualTransform` plus its abstract per-transform
methods (`get_params`, `apply`, `apply_to_bbox`) as function fields.
`interpolation` / `fill_value` / `mask_fill_value` are `Option`s
because `update_params` guards them with `hasattr`.  The transforms
modelled here have the default empty `targets_as_params` and
`target_dependence`, so those branches are elided where they would be
no-ops. -/
structure DualTransform where
  p : ℚ
  always_apply : Bool := false
  deterministic : Bool := false
  save_key : String := "replay"
  params : Params := []
  replay_mode : Bool := false
  applied_in_replay : Bool := false
  additional_targets : List (String × String) := []
  interpolation : Option PVal := none
  fill_value : Option PVal := none
  mask_fill_value : Option PVal := none
  get_params : Params := []
  apply : Img → Params → Img
  apply_to_bbox : List ℚ → Params → List ℚ

/-- `BasicTransform.add_targets`: assigns the caller's mapping to
`self._additional_targets`. -/
def DualTransform.add_targets (t : DualTransform)
    (m : List (String × String)) : DualTransform :=
  { t with additional_targets := m }

/-- The additional-targets table the spec describes for two successive
`add_targets` calls: the per-key last-write-wins merge of the two
mappings into the existing table. -/
def addTargetsMergeSpec (table m : List (String × String)) :
    List (String × String) :=
  m.foldl (fun acc kv => dictSet acc kv.1 kv.2) table

/-- `BasicTransform.set_deterministic`: the reserved save key `"params"`
is rejected (assertion failure), otherwise both fields are set. -/
def DualTransform.set_deterministic (t : DualTransform) (flag : Bool)
    (save_key : String) : Except Err DualTransform :=
  if save_key = "params" then .error .valueError
  else .ok { t with deterministic := flag, save_key := save_key }

/-- `BasicTransform._get_target_function`, key-resolution part:
substitute the aliased canonical key when `key` is registered in
`_additional_targets`. -/
def DualTransform.transform_key (t : DualTransform) (key : String) :
    String :=
  match dictGet t.additional_targets key with
  | some tk => tk
  | none => key

/-- The dict comprehension inside `DualTransform.apply_to_mask`:
every entry keyed `"interpolation"` is replaced by
`cv2.INTER_NEAREST`, every other entry kept as-is. -/
def maskParams (ps : Params) : Params :=
  ps.map (fun kv => if kv.1 = "interpolation" then (kv.1, INTER_NEAREST) else kv)

/-- `DualTransform.apply_to_mask`: `apply` on the rewritten params. -/
def DualTransform.apply_to_mask (t : DualTransform) (im : Img)
    (ps : Params) : Img :=
  t.apply im (maskParams ps)

/-- The `for i, bbox in enumerate(bboxes.array)` loop of
`apply_to_bboxes`: each row is replaced in place by the per-record
result, a numpy row assignment that raises `ValueError` when the
result does not broadcast to the row's width. -/
def bboxLoop (f : List ℚ → List ℚ) :
    List (List ℚ) → Except Err (List (List ℚ))
  | [] => .ok []
  | row :: rows => do
      let r ← match broadcastRow row.length (NpA.d1 (f row)) with
        | some r => Except.ok r
        | none => Except.error Err.valueError
      let rs ← bboxLoop f rows
      pure (r :: rs)

/-- `DualTransform.apply_to_bboxes`: iterate the records of the batch
and write `apply_to_bbox`'s result back into each row in place.
Metadata is untouched.  A non-empty 1-dimensional record array would
iterate scalars and is outside the layouts a valid batch has. -/
def DualTransform.apply_to_bboxes (t : DualTransform)
    (b : Floats4Internal) (ps : Params) : Except Err Floats4Internal :=
  match b.array with
  | .d1 xs => if xs.isEmpty then .ok b else .error .typeError
  | .d2 xss => do
      let rows' ← bboxLoop (fun row => t.apply_to_bbox row ps) xss
      pure { b with array := NpA.d2 rows' }

/-- `BasicTransform._get_target_function` applied: the `DualTransform`
target table routes `"image"` to `apply`, `"mask"` to `apply_to_mask`
and `"bboxes"` to `apply_to_bboxes`; any unrecognized (post-aliasing)
key falls back to the identity function.  (The `"masks"` and
`"keypoints"` table entries are not exercised by the claims and are
not modelled.)  A value of the wrong shape for its key's handler is
outside the modelled scope and passes through. -/
def DualTransform.targetFn (t : DualTransform) (tk : String) (v : Value)
    (ps : Params) : Except Err Value :=
  if tk = "image" then
    match v with
    | .img im => .ok (.img (t.apply im ps))
    | v => .ok v
  else if tk = "mask" then
    match v with
    | .img im => .ok (.img (t.apply_to_mask im ps))
    | v => .ok v
  else if tk = "bboxes" then
    match v with
    | .boxes b => (t.apply_to_bboxes b ps).map .boxes
    | v => .ok v
  else .ok v

/-- `BasicTransform.update_params`: write the declared
`interpolation` / `fill_value` / `mask_fill_value` attributes into the
params dict, then `cols`/`rows` from `kwargs["image"].shape` — a
missing `"image"` key raises `KeyError` (a non-buffer value there
lacks `.shape` and raises as well). -/
def DualTransform.update_params (t : DualTransform) (ps : Params)
    (kwargs : KwArgs) : Except Err Params :=
  let p1 := match t.interpolation with
    | some v => dictSet ps "interpolation" v
    | none => ps
  let p2 := match t.fill_value with
    | some v => dictSet p1 "fill_value" v
    | none => p1
  let p3 := match t.mask_fill_value with
    | some v => dictSet p2 "mask_fill_value" v
    | none => p2
  match dictGet kwargs "image" with
  | some (.img im) =>
      .ok (dictSet (dictSet p3 "cols" (.natV im.cols)) "rows" (.natV im.rows))
  | some _ => .error .typeError
  | none => .error .keyError

/-- One iteration of the `for key, arg in kwargs.items()` loop of
`apply_with_params`: a non-`None` value goes to its resolved target
function with the shared final params, `None` passes through. -/
def applyOne (t : DualTransform) (fps : Params) (kv : String × Value) :
    Except Err Value :=
  match kv.2 with
  | .null => .ok .null
  | v => t.targetFn (t.transform_key kv.1) v fps

/-- The full loop of `apply_with_params`, building the result mapping
in input order. -/
def applyEach (t : DualTransform) (fps : Params) :
    KwArgs → Except Err KwArgs
  | [] => .ok []
  | kv :: rest => do
      let r ← applyOne t fps kv
      let rest' ← applyEach t fps rest
      pure ((kv.1, r) :: rest')

/-- `BasicTransform.apply_with_params`: `None` params short-circuit;
otherwise `update_params` once, then route every named value through
its resolved target function with the shared final params
(`target_dependence` is empty for the modelled transforms). -/
def DualTransform.apply_with_params (t : DualTransform)
    (params? : Option Params) (kwargs : KwArgs) : Except Err KwArgs :=
  match params? with
  | none => .ok kwargs
  | some ps => do
      let fps ← t.update_params ps kwargs
      applyEach t fps kwargs

/-- The fire condition of `BasicTransform.__call__`:
`random.random() < p or always_apply or force_apply`, with the draw
made explicit. -/
def fireCond (t : DualTransform) (draw : ℚ) (force_apply : Bool) : Bool :=
  decide (draw < t.p) || t.always_apply || force_apply

/-- `BasicTransform.__call__` on named data: the replay branch first
(recorded params when `applied_in_replay`, untouched passthrough
otherwise); then the fire condition; on firing, `get_params` (the
modelled transforms have empty `targets_as_params`, skipping the
dependent-params branch), the deterministic recording of a deep copy
of the params into `kwargs[save_key]` under the instance identity
`tid` (`KeyError` when the save key is absent, `TypeError` when its
value has no item assignment), and finally `apply_with_params`.
A non-firing call returns the input unchanged. -/
def DualTransform.call (t : DualTransform) (tid : Nat) (draw : ℚ)
    (force_apply : Bool) (kwargs : KwArgs) : Except Err KwArgs :=
  if t.replay_mode then
    if t.applied_in_replay then t.apply_with_params (some t.params) kwargs
    else .ok kwargs
  else if fireCond t draw force_apply then
    let ps := t.get_params
    if t.deterministic then
      match dictGet kwargs t.save_key with
      | some (.store s) =>
          let kwargs' := dictSet kwargs t.save_key (.store (dictSet s tid ps))
          t.apply_with_params (some ps) kwargs'
      | some _ => .error .typeError
      | none => .error .keyError
    else t.apply_with_params (some ps) kwargs
  else .ok kwargs

/-- Replace every record row of an array by `f` of it (the net effect
of the `apply_to_bboxes` write-back loop when every result fits its
row). -/
def NpA.mapRows (f : List α → List α) : NpA α → NpA α
  | .d1 xs => .d1 xs
  | .d2 xss => .d2 (xss.map f)

/-- A concrete dual transform used to instantiate general theorems:
identity on image buffers, coordinate reversal on every bbox record. -/
def shiftT : DualTransform where
  p := 1
  apply := fun im _ => im
  apply_to_bbox := fun r _ => r.reverse

/-! Association-list (Python dict) lemmas. -/

theorem dictGet_dictSet_self [DecidableEq κ] (l : List (κ × β)) (k : κ)
    (v : β) : dictGet (dictSet l k v) k = some v := by
  induction l with
  | nil => simp [dictSet, dictGet]
  | cons kv rest ih =>
      by_cases h : kv.1 = k
      · simp [dictSet, dictGet, h]
      · simp [dictSet, dictGet, h, ih]

theorem dictGet_dictSet_ne [DecidableEq κ] (l : List (κ × β)) (k k' : κ)
    (v : β) (h : k' ≠ k) : dictGet (dictSet l k v) k' = dictGet l k' := by
  have hne : ¬k = k' := fun he => h he.symm
  induction l with
  | nil => simp [dictSet, dictGet, hne]
  | cons kv rest ih =>
      by_cases hk : kv.1 = k
      · subst hk
        have hne' : ¬kv.1 = k' := hne
        simp [dictSet, dictGet, hne']
      · simp only [dictSet, dictGet, if_neg hk]
        by_cases hk' : kv.1 = k'
        · simp [hk']
        · simp [hk', ih]

/-! Batch-invariant lemmas. -/

theorem Floats4Internal.Valid.len_eq {b : Floats4Internal} (hb : b.Valid) :
    b.array.len = b.targets.len := by
  unfold Floats4Internal.Valid Floats4Internal.check_consistency at hb
  by_cases h : b.array.len = b.targets.len
  · exact h
  · simp [h] at hb

theorem Floats4Internal.Valid.format {b : Floats4Internal} (hb : b.Valid) :
    assert_array_format b.kind b.array = .ok () := by
  unfold Floats4Internal.Valid Floats4Internal.check_consistency at hb
  by_cases h : b.array.len = b.targets.len
  · simpa [h] using hb
  · simp [h] at hb

theorem Floats4Internal.Valid.d1_empty {b : Floats4Internal}
    (hb : b.Valid) {xs : List ℚ} (h : b.array = .d1 xs) : xs = [] := by
  have hf := hb.format
  rw [h] at hf
  unfold assert_array_format at hf
  by_cases hl : (NpA.d1 xs).len = 0
  · simpa [NpA.len] using hl
  · cases hk : b.kind <;> rw [hk] at hf <;> simp [hl, NpA.ndim] at hf

/-! Broadcast and loop lemmas. -/

theorem broadcastRow_length {α : Type} {w : Nat} {src : NpA α}
    {r : List α} (h : broadcastRow w src = some r) : r.length = w := by
  unfold broadcastRow at h
  cases src with
  | d1 xs =>
      simp only at h
      split at h
      · cases h; omega
      · split at h
        · cases h; simp
        · cases h
  | d2 xss =>
      match xss with
      | [] => cases h
      | [xs] =>
          simp only at h
          split at h
          · cases h; omega
          · split at h
            · cases h; simp
            · cases h
      | _ :: _ :: _ => cases h

theorem bboxLoop_ok (f : List ℚ → List ℚ)
    (hw : ∀ row, (f row).length = row.length) :
    ∀ xss : List (List ℚ), bboxLoop f xss = .ok (xss.map f)
  | [] => rfl
  | row :: rows => by
      have hbc : broadcastRow row.length (NpA.d1 (f row)) = some (f row) := by
        simp [broadcastRow, hw row]
      unfold bboxLoop
      rw [hbc, bboxLoop_ok f hw rows]
      rfl

theorem apply_to_bboxes_ok (t : DualTransform) (b : Floats4Internal)
    (ps : Params) (hb : b.Valid)
    (hw : ∀ row, (t.apply_to_bbox row ps).length = row.length) :
    t.apply_to_bboxes b ps =
      .ok { b with array := b.array.mapRows (fun row => t.apply_to_bbox row ps) } := by
  obtain ⟨kind, arr, tg⟩ := b
  cases arr with
  | d1 xs =>
      have hx : xs = [] := Floats4Internal.Valid.d1_empty hb rfl
      subst hx
      simp [DualTransform.apply_to_bboxes, NpA.mapRows]
  | d2 xss =>
      simp only [DualTransform.apply_to_bboxes]
      rw [bboxLoop_ok (fun row => t.apply_to_bbox row ps) hw xss]
      rfl

/-! Dispatch lemmas. -/

theorem targetFn_store (t : DualTransform) (tk : String)
    (s : List (Nat × Params)) (ps : Params) :
    t.targetFn tk (.store s) ps = .ok (.store s) := by
  unfold DualTransform.targetFn
  split_ifs <;> rfl

theorem applyEach_store (t : DualTransform) (fps : Params) (k : String)
    (s : List (Nat × Params)) :
    ∀ (l out : KwArgs), applyEach t fps l = .ok out →
      dictGet l k = some (.store s) → dictGet out k = some (.store s)
  | [], out => by
      intro h hk
      simp [dictGet] at hk
  | kv :: rest, out => by
      intro h hk
      unfold applyEach at h
      cases hX : applyOne t fps kv with
      | error e => rw [hX] at h; simp [Bind.bind, Except.bind] at h
      | ok r =>
          rw [hX] at h
          cases hR : applyEach t fps rest with
          | error e => rw [hR] at h; simp [Bind.bind, Except.bind] at h
          | ok rest' =>
              rw [hR] at h
              simp only [Bind.bind, Except.bind, Pure.pure, Except.pure,
                Except.ok.injEq] at h
              subst h
              unfold dictGet at hk ⊢
              by_cases hkk : kv.1 = k
              · rw [if_pos hkk] at hk ⊢
                have hv : kv.2 = .store s := by
                  injection hk
                unfold applyOne at hX
                rw [hv] at hX
                have hX' : t.targetFn (t.transform_key kv.1) (.store s) fps =
                    Except.ok r := hX
                rw [targetFn_store] at hX'
                injection hX' with hX'
                rw [← hX']
              · rw [if_neg hkk] at hk ⊢
                exact applyEach_store t fps k s rest rest' hR hk

theorem call_fires (t : DualTransform) (tid : Nat) (draw : ℚ)
    (force_apply : Bool) (kwargs : KwArgs)
    (hrm : t.replay_mode = false) (hdet : t.deterministic = false)
    (hfire : fireCond t draw force_apply = true) :
    t.call tid draw force_apply kwargs =
      t.apply_with_params (some t.get_params) kwargs := by
  simp [DualTransform.call, hrm, hdet, hfire]

/-! Lookup behaviour of the mask-params rewrite. -/

theorem maskParams_cons (kv : String × PVal) (rest : Params) :
    maskParams (kv :: rest) =
      (if kv.1 = "interpolation" then (kv.1, INTER_NEAREST) else kv) ::
        maskParams rest := rfl

theorem dictGet_maskParams_interpolation (ps : Params) :
    dictGet (maskParams ps) "interpolation" =
      (dictGet ps "interpolation").map (fun _ => INTER_NEAREST) := by
  induction ps with
  | nil => rfl
  | cons kv rest ih =>
      rw [maskParams_cons]
      by_cases h : kv.1 = "interpolation"
      · rw [if_pos h]
        simp [dictGet, h]
      · rw [if_neg h]
        simp [dictGet, h, ih]

theorem dictGet_maskParams_ne (ps : Params) (k : String)
    (h : k ≠ "interpolation") :
    dictGet (maskParams ps) k = dictGet ps k := by
  have h' : ¬"interpolation" = k := fun he => h he.symm
  induction ps with
  | nil => rfl
  | cons kv rest ih =>
      rw [maskParams_cons]
      by_cases hk : kv.1 = "interpolation"
      · rw [if_pos hk]
        have hkk : ¬kv.1 = k := by rw [hk]; exact h'
        simp [dictGet, hk, h', hkk, ih]
      · rw [if_neg hk]
        simp [dictGet, ih]

/-- C5: with `replay_mode` true and `applied_in_replay` false, a call
returns exactly the input mapping — no parameter generation,
validation or apply function runs. -/
theorem replay_not_applied_passthrough (t : DualTransform) (tid : Nat)
    (draw : ℚ) (force_apply : Bool) (kwargs : KwArgs)
    (h1 : t.replay_mode = true) (h2 : t.applied_in_replay = false) :
    t.call tid draw force_apply kwargs = .ok kwargs := by
  simp [DualTransform.call, h1, h2]

theorem replay_not_applied_passthrough_witness :
    ({ shiftT with replay_mode := true } : DualTransform).call 0 0 false
      [("image", .raw 3), ("extra", .null)] =
      .ok [("image", .raw 3), ("extra", .null)] :=
  replay_not_applied_passthrough _ 0 0 false _ rfl rfl

/-- C6: `to_tuple` of a scalar with no anchor and no bias is `(-v, v)`;
of a 2-element sequence, the tuple in given order; of a scalar with an
anchor, the ascending pair; of `None`, `None`. -/
theorem to_tuple_normalizes :
    (∀ v : ℚ, to_tuple (.scalar v) none none = .ok (some (-v, v))) ∧
    (∀ x y : ℚ, to_tuple (.seq [x, y]) none none = .ok (some (x, y))) ∧
    (∀ v a : ℚ, to_tuple (.scalar v) (some a) none =
      .ok (some (min a v, max a v))) ∧
    to_tuple .noneV none none = .ok none := by
  refine ⟨fun v => rfl, fun x y => rfl, fun v a => ?_, rfl⟩
  rcases lt_or_ge a v with h | h
  · simp [to_tuple, applyBias, h, min_eq_left h.le, max_eq_right h.le]
  · simp [to_tuple, applyBias, not_lt.2 h, min_eq_right h, max_eq_left h]

/-- C7: `apply_to_mask` calls `apply` with the params dict rewritten so
that any `interpolation` entry becomes `cv2.INTER_NEAREST`, all other
entries unchanged (an absent `interpolation` key stays absent). -/
theorem apply_to_mask_forces_nearest (t : DualTransform) (im : Img)
    (ps : Params) :
    t.apply_to_mask im ps = t.apply im (maskParams ps) ∧
    (∀ v, dictGet ps "interpolation" = some v →
      dictGet (maskParams ps) "interpolation" = some INTER_NEAREST) ∧
    (dictGet ps "interpolation" = none →
      dictGet (maskParams ps) "interpolation" = none) ∧
    (∀ k : String, k ≠ "interpolation" →
      dictGet (maskParams ps) k = dictGet ps k) := by
  refine ⟨rfl, fun v hv => ?_, fun hv => ?_, fun k hk => ?_⟩
  · rw [dictGet_maskParams_interpolation, hv]; rfl
  · rw [dictGet_maskParams_interpolation, hv]; rfl
  · exact dictGet_maskParams_ne ps k hk

theorem apply_to_mask_forces_nearest_witness :
    shiftT.apply_to_mask ⟨2, 2, []⟩ [("interpolation", .natV 1), ("shift", .ratV 3)] =
      shiftT.apply ⟨2, 2, []⟩ [("interpolation", INTER_NEAREST), ("shift", .ratV 3)] ∧
    dictGet (maskParams [("interpolation", .natV 1), ("shift", .ratV 3)])
      "interpolation" = some INTER_NEAREST ∧
    dictGet (maskParams [("interpolation", .natV 1), ("shift", .ratV 3)])
      "shift" = dictGet [("interpolation", .natV 1), ("shift", .ratV 3)] "shift" :=
  ⟨(apply_to_mask_forces_nearest shiftT ⟨2, 2, []⟩ _).1,
   (apply_to_mask_forces_nearest shiftT ⟨2, 2, []⟩ _).2.1 (.natV 1) rfl,
   (apply_to_mask_forces_nearest shiftT ⟨2, 2, []⟩ _).2.2.2 "shift" (by decide)⟩

/-- C8: with `p = 1` (and `always_apply` false) every draw in `[0, 1)`
fires; with `p = 0`, `always_apply` false and `force_apply` false no
draw fires and the input mapping comes back unchanged. -/
theorem fire_probability_extremes (t : DualTransform) (tid : Nat)
    (draw : ℚ) (kwargs : KwArgs) (h0 : 0 ≤ draw) (h1 : draw < 1) :
    (t.p = 1 → t.always_apply = false → fireCond t draw false = true) ∧
    (t.p = 0 → t.always_apply = false → t.replay_mode = false →
      fireCond t draw false = false ∧
      t.call tid draw false kwargs = .ok kwargs) := by
  constructor
  · intro hp _
    simp [fireCond, hp, h1]
  · intro hp ha hrm
    have hf : fireCond t draw false = false := by
      simp [fireCond, hp, ha, not_lt.2 h0]
    exact ⟨hf, by simp [DualTransform.call, hrm, hf]⟩

theorem fire_probability_extremes_witness :
    (fireCond shiftT (1/2) false = true) ∧
    (fireCond { shiftT with p := 0 } (1/2) false = false ∧
      ({ shiftT with p := 0 } : DualTransform).call 0 (1/2) false
        [("x", .raw 1)] = .ok [("x", .raw 1)]) :=
  ⟨(fire_probability_extremes shiftT 0 (1/2) [] (by norm_num) (by norm_num)).1
      rfl rfl,
   (fire_probability_extremes { shiftT with p := 0 } 0 (1/2) [("x", .raw 1)]
      (by norm_num) (by norm_num)).2 rfl rfl rfl⟩

/-- C9: two same-kind batches whose four stored arrays all have zero
length compare equal whatever their stored dimensionality; comparing
across kinds raises `TypeError`. -/
theorem empty_batch_eq_and_kind_mismatch (a b : Floats4Internal) :
    (a.kind = b.kind → a.array.len = 0 → b.array.len = 0 →
      a.targets.len = 0 → b.targets.len = 0 → a.eq b = .ok true) ∧
    (a.kind ≠ b.kind → a.eq b = .error .typeError) := by
  constructor
  · intro hk h1 h2 h3 h4
    simp [Floats4Internal.eq, hk, h1, h2, h3, h4]
  · intro hk
    simp [Floats4Internal.eq, hk]

theorem empty_batch_eq_and_kind_mismatch_witness :
    Floats4Internal.eq ⟨.bboxes, .d2 [], .d2 []⟩ ⟨.bboxes, .d1 [], .d1 []⟩ =
      .ok true ∧
    Floats4Internal.eq ⟨.bboxes, .d2 [], .d2 []⟩
      ⟨.keypoints, .d2 [], .d2 []⟩ = .error .typeError :=
  ⟨(empty_batch_eq_and_kind_mismatch _ _).1 rfl rfl rfl rfl rfl,
   (empty_batch_eq_and_kind_mismatch _ _).2 (by decide)⟩

/-- C3 (code bug): constructing a boxes batch from a plain nested
sequence raises `TypeError` in `__setattr__` before `__post_init__`'s
coercion can run — the claimed coercion path is unreachable — while
the same records as an ndarray construct fine with synthesized
zero-column metadata. -/
theorem construct_plain_raises :
    construct .bboxes (.plain [[1, 1, 5, 5]]) none = .error .typeError ∧
    construct .bboxes (.nd (.d2 [[1, 1, 5, 5]])) none =
      .ok ⟨.bboxes, .d2 [[1, 1, 5, 5]], .d2 [[]]⟩ := by
  exact ⟨rfl, by decide⟩

/-- C2 counterexample: after `add_targets({"image2": "image"})` then
`add_targets({"mask2": "mask"})`, the table is not the last-write-wins
merge of the two mappings (and `"image2"` no longer resolves to
`"image"`): the second call replaced the table. -/
theorem add_targets_not_merged :
    ¬ ((((shiftT.add_targets [("image2", "image")]).add_targets
          [("mask2", "mask")]).additional_targets =
        addTargetsMergeSpec [("image2", "image")] [("mask2", "mask")]) ∧
       ((shiftT.add_targets [("image2", "image")]).add_targets
          [("mask2", "mask")]).transform_key "image2" = "image") := by
  intro h
  exact absurd h.1 (by decide)

/-- C2 (amended): `add_targets` replaces the additional-targets table
with its argument, so after two calls the table equals the second
mapping alone, and a key registered only in the first mapping falls
back to identity resolution. -/
theorem add_targets_replaces (t : DualTransform)
    (m1 m2 : List (String × String)) (k : String) :
    ((t.add_targets m1).add_targets m2).additional_targets = m2 ∧
    (dictGet m2 k = none →
      ((t.add_targets m1).add_targets m2).transform_key k = k) := by
  refine ⟨rfl, fun h => ?_⟩
  simp [DualTransform.transform_key, DualTransform.add_targets, h]

theorem add_targets_replaces_witness :
    ((shiftT.add_targets [("image2", "image")]).add_targets
        [("mask2", "mask")]).additional_targets = [("mask2", "mask")] ∧
    ((shiftT.add_targets [("image2", "image")]).add_targets
        [("mask2", "mask")]).transform_key "image2" = "image2" :=
  ⟨(add_targets_replaces shiftT [("image2", "image")] [("mask2", "mask")]
      "image2").1,
   (add_targets_replaces shiftT [("image2", "image")] [("mask2", "mask")]
      "image2").2 rfl⟩

/-- Replacing one row by an equal-length row keeps the array format. -/
theorem assert_array_format_d2_set (kind : BatchKind)
    (xss : List (List ℚ)) (idx : Nat) (r : List ℚ) (h : idx < xss.length)
    (hr : r.length = (xss.get ⟨idx, h⟩).length)
    (hf : assert_array_format kind (.d2 xss) = .ok ()) :
    assert_array_format kind (.d2 (xss.set idx r)) = .ok () := by
  have hlen : (xss.set idx r).length = xss.length := List.length_set xss idx r
  have hld : NpA.lastDim (NpA.d2 (xss.set idx r)) = NpA.lastDim (NpA.d2 xss) := by
    cases xss with
    | nil => simp at h
    | cons a as =>
        cases idx with
        | zero =>
            simp only [List.set, NpA.lastDim, List.headD]
            simpa using hr
        | succ n => simp [List.set, NpA.lastDim]
  unfold assert_array_format at hf ⊢
  simp only [NpA.len, NpA.ndim, hlen, hld] at hf ⊢
  exact hf

/-- C4: on a batch satisfying its invariants, any successful
`__setitem__` write leaves a batch that still satisfies them, with
kind and record/metadata counts unchanged (an incompatible write
raises instead of returning a batch). -/
theorem setItemInt_preserves (b : Floats4Internal) (idx : Nat)
    (v : Floats4Internal) (hb : b.Valid) :
    ∀ b', b.setItemInt idx v = .ok b' →
      b'.Valid ∧ b'.kind = b.kind ∧ b'.array.len = b.array.len ∧
        b'.targets.len = b.targets.len := by
  intro b' h
  obtain ⟨kind, arr, tg⟩ := b
  cases arr with
  | d1 xs => exact absurd h (by simp [Floats4Internal.setItemInt])
  | d2 xss =>
      cases tg with
      | d1 ts => exact absurd h (by simp [Floats4Internal.setItemInt])
      | d2 tss =>
          unfold Floats4Internal.setItemInt at h
          simp only at h
          split at h
          case isFalse => exact absurd h (by simp)
          case isTrue hidx =>
            cases hbc : broadcastRow (xss.get ⟨idx, hidx⟩).length v.array with
            | none => rw [hbc] at h; exact absurd h (by simp)
            | some newRow =>
                rw [hbc] at h
                simp only at h
                split at h
                case isFalse => exact absurd h (by simp)
                case isTrue hidx2 =>
                  cases hbt : broadcastRow (tss.get ⟨idx, hidx2⟩).length
                      v.targets with
                  | none => rw [hbt] at h; exact absurd h (by simp)
                  | some newT =>
                      rw [hbt] at h
                      simp only [Except.ok.injEq] at h
                      subst h
                      have hlen : xss.length = tss.length := by
                        have := hb.len_eq
                        simpa [NpA.len] using this
                      have hfmt := hb.format
                      refine ⟨?_, rfl, ?_, ?_⟩
                      · show Floats4Internal.check_consistency _ = .ok ()
                        unfold Floats4Internal.check_consistency
                        have hl2 : NpA.len (NpA.d2 (xss.set idx newRow)) =
                            NpA.len (NpA.d2 (tss.set idx newT)) := by
                          simp [NpA.len, List.length_set, hlen]
                        rw [if_neg (by simp [hl2])]
                        exact assert_array_format_d2_set kind xss idx newRow
                          hidx (broadcastRow_length hbc) hfmt
                      · simp [NpA.len, List.length_set]
                      · simp [NpA.len, List.length_set]

theorem setItemInt_preserves_witness :
    (⟨.bboxes, .d2 [[1, 1, 5, 5], [0, 0, 2, 2]], .d2 [[], []]⟩ :
        Floats4Internal).Valid ∧
    ((⟨.bboxes, .d2 [[1, 1, 5, 5], [0, 0, 2, 2]], .d2 [[], []]⟩ :
        Floats4Internal).setItemInt 1
        ⟨.bboxes, .d2 [[7, 7, 8, 8]], .d2 [[]]⟩ =
      .ok ⟨.bboxes, .d2 [[1, 1, 5, 5], [7, 7, 8, 8]], .d2 [[], []]⟩) ∧
    (⟨.bboxes, .d2 [[1, 1, 5, 5], [7, 7, 8, 8]], .d2 [[], []]⟩ :
        Floats4Internal).Valid :=
  ⟨by decide, by decide,
   ((setItemInt_preserves
      ⟨.bboxes, .d2 [[1, 1, 5, 5], [0, 0, 2, 2]], .d2 [[], []]⟩ 1
      ⟨.bboxes, .d2 [[7, 7, 8, 8]], .d2 [[]]⟩ (by decide))
      ⟨.bboxes, .d2 [[1, 1, 5, 5], [7, 7, 8, 8]], .d2 [[], []]⟩
      (by decide)).1⟩

/-- C1: a firing dual-transform call with named `image` and `bboxes`
produces the image transformed by `apply` and the bboxes batch with
every record transformed by `apply_to_bbox`, both receiving the single
shared final parameter mapping `fps` built once from the one
`get_params` draw. -/
theorem dual_call_shared_params (t : DualTransform) (tid : Nat)
    (draw : ℚ) (im : Img) (b : Floats4Internal)
    (hrm : t.replay_mode = false) (hdet : t.deterministic = false)
    (hat : t.additional_targets = [])
    (hp : t.p = 1) (h1 : draw < 1) (hb : b.Valid)
    (hw : ∀ row ps, (t.apply_to_bbox row ps).length = row.length) :
    ∃ fps, t.update_params t.get_params
        [("image", .img im), ("bboxes", .boxes b)] = .ok fps ∧
      t.call tid draw false [("image", .img im), ("bboxes", .boxes b)] =
        .ok [("image", .img (t.apply im fps)),
             ("bboxes", .boxes { b with
               array := b.array.mapRows (fun row => t.apply_to_bbox row fps) })] := by
  have hfire : fireCond t draw false = true := by
    simp [fireCond, hp, h1]
  obtain ⟨fps, hfps⟩ : ∃ fps,
      t.update_params t.get_params
        [("image", .img im), ("bboxes", .boxes b)] = .ok fps := ⟨_, rfl⟩
  refine ⟨fps, hfps, ?_⟩
  rw [call_fires t tid draw false _ hrm hdet hfire]
  show (do
      let fps' ← t.update_params t.get_params
        [("image", .img im), ("bboxes", .boxes b)]
      applyEach t fps' [("image", .img im), ("bboxes", .boxes b)]) = _
  rw [hfps]
  show applyEach t fps [("image", .img im), ("bboxes", .boxes b)] = _
  have htk1 : t.transform_key "image" = "image" := by
    simp [DualTransform.transform_key, hat, dictGet]
  have htk2 : t.transform_key "bboxes" = "bboxes" := by
    simp [DualTransform.transform_key, hat, dictGet]
  have h1e : applyOne t fps ("image", .img im) =
      .ok (.img (t.apply im fps)) := by
    show t.targetFn (t.transform_key "image") (.img im) fps = _
    rw [htk1]
    rfl
  have h2e : applyOne t fps ("bboxes", .boxes b) =
      .ok (.boxes { b with
        array := b.array.mapRows (fun row => t.apply_to_bbox row fps) }) := by
    show t.targetFn (t.transform_key "bboxes") (.boxes b) fps = _
    rw [htk2]
    show (t.apply_to_bboxes b fps).map Value.boxes = _
    rw [apply_to_bboxes_ok t b fps hb (fun row => hw row fps)]
    rfl
  simp only [applyEach]
  rw [h1e, h2e]
  rfl

theorem dual_call_shared_params_witness :
    shiftT.call 0 0 false
      [("image", .img ⟨10, 10, [[1, 2], [3, 4]]⟩),
       ("bboxes", .boxes ⟨.bboxes, .d2 [[1, 1, 5, 5]], .d2 [[]]⟩)] =
      .ok [("image", .img ⟨10, 10, [[1, 2], [3, 4]]⟩),
           ("bboxes", .boxes ⟨.bboxes, .d2 [[5, 5, 1, 1]], .d2 [[]]⟩)] := by
  obtain ⟨fps, hfps, hcall⟩ := dual_call_shared_params shiftT 0 0
    ⟨10, 10, [[1, 2], [3, 4]]⟩ ⟨.bboxes, .d2 [[1, 1, 5, 5]], .d2 [[]]⟩
    rfl rfl rfl rfl (by norm_num) (by decide) (fun row ps => by
      show row.reverse.length = row.length
      simp)
  rw [hcall]
  have hfe : fps = [("cols", .natV 10), ("rows", .natV 10)] := by
    have h2 := hfps.symm.trans (show shiftT.update_params shiftT.get_params
      [("image", .img ⟨10, 10, [[1, 2], [3, 4]]⟩),
       ("bboxes", .boxes ⟨.bboxes, .d2 [[1, 1, 5, 5]], .d2 [[]]⟩)] =
        .ok [("cols", .natV 10), ("rows", .natV 10)] from rfl)
    injection h2
  subst hfe
  rfl

/-- C10: a firing call on a deterministic transform requires the
save-key entry in the call data — a missing entry raises `KeyError`, a
non-mapping value raises on item assignment — and when a replay store
is present, a successful call's output carries the store with the
generated (pre-`update_params`) parameters deep-copied under the
instance identity `tid`. -/
theorem deterministic_records_params (t : DualTransform) (tid : Nat)
    (draw : ℚ) (force_apply : Bool) (kwargs : KwArgs)
    (hrm : t.replay_mode = false) (hdet : t.deterministic = true)
    (hfire : fireCond t draw force_apply = true) :
    (dictGet kwargs t.save_key = none →
      t.call tid draw force_apply kwargs = .error .keyError) ∧
    (∀ v, dictGet kwargs t.save_key = some v → (∀ s, v ≠ .store s) →
      t.call tid draw force_apply kwargs = .error .typeError) ∧
    (∀ s out, dictGet kwargs t.save_key = some (.store s) →
      t.call tid draw force_apply kwargs = .ok out →
      dictGet out t.save_key = some (.store (dictSet s tid t.get_params))) := by
  refine ⟨?_, ?_, ?_⟩
  · intro h
    simp [DualTransform.call, hrm, hfire, hdet, h]
  · intro v hv hns
    cases v with
    | store s => exact absurd rfl (hns s)
    | img im => simp [DualTransform.call, hrm, hfire, hdet, hv]
    | boxes b => simp [DualTransform.call, hrm, hfire, hdet, hv]
    | raw n => simp [DualTransform.call, hrm, hfire, hdet, hv]
    | null => simp [DualTransform.call, hrm, hfire, hdet, hv]
  · intro s out hs hout
    simp only [DualTransform.call, hrm, hfire, hdet, Bool.false_eq_true,
      if_false, if_true, hs] at hout
    have hout' : (do
        let fps ← t.update_params t.get_params
          (dictSet kwargs t.save_key (.store (dictSet s tid t.get_params)))
        applyEach t fps
          (dictSet kwargs t.save_key
            (.store (dictSet s tid t.get_params)))) = .ok out := hout
    cases hup : t.update_params t.get_params
        (dictSet kwargs t.save_key (.store (dictSet s tid t.get_params))) with
    | error e =>
        rw [hup] at hout'
        simp [Bind.bind, Except.bind] at hout'
    | ok fps =>
        rw [hup] at hout'
        simp only [Bind.bind, Except.bind] at hout'
        exact applyEach_store t fps t.save_key (dictSet s tid t.get_params)
          (dictSet kwargs t.save_key (.store (dictSet s tid t.get_params)))
          out hout'
          (dictGet_dictSet_self kwargs t.save_key
            (.store (dictSet s tid t.get_params)))

theorem deterministic_records_params_witness :
    ({ shiftT with deterministic := true } : DualTransform).call 7 0 false
        [("image", .img ⟨2, 2, []⟩)] = .error .keyError ∧
    dictGet [("image", Value.img ⟨2, 2, []⟩),
        ("replay", Value.store [(7, [])])] "replay" =
      some (.store (dictSet [] 7
        ({ shiftT with deterministic := true } : DualTransform).get_params)) := by
  constructor
  · exact (deterministic_records_params { shiftT with deterministic := true }
      7 0 false [("image", .img ⟨2, 2, []⟩)] rfl rfl (by decide)).1 rfl
  · exact (deterministic_records_params { shiftT with deterministic := true }
      7 0 false [("image", .img ⟨2, 2, []⟩), ("replay", .store [])]
      rfl rfl (by decide)).2.2 [] _ rfl rfl
